import Mathlib

/-!
Verification of the crypto-data repository (src/src/utils.py and
src/src/CryptoSources.py): a shallow embedding in Lean 4 of the data-cleaning
functions, the record cleaner, the source adapters (Coindesk, Poloniex) and
their validation logic, together with theorems settling the specification
claims.

Conventions of the embedding:
- Python scalars are the inductive type PyVal (None, int, float, str).
  Python ints are unbounded, matching Int.  Python floats are modelled by
  rationals holding the exact value; no claim depends on float rounding.
- Python exceptions that the source catches are modelled by Option results
  (none = the except branch ran).
- String operations are modelled on the underlying character lists so that
  every definition evaluates by kernel reduction.
- Library calls of the Python runtime (str(), int(), float(), time.gmtime,
  time.strftime, datetime.strptime) are modelled from their documented
  behaviour; the repository code itself is translated line by line.
-/

/-! # Character and decimal-string helpers (models of Python str/int rendering) -/

/-- Decimal digits of a natural number, least significant first, driven by
structural fuel so that the kernel can evaluate it.  The fuel is always
sufficient when it exceeds the number. -/
def natDigitsRevGo : Nat → Nat → List Char
  | 0, _ => []
  | fuel + 1, n =>
    if n < 10 then [Char.ofNat (48 + n)]
    else Char.ofNat (48 + n % 10) :: natDigitsRevGo fuel (n / 10)

/-- Decimal digits of a natural number, least significant first. -/
def natDigitsRev (n : Nat) : List Char := natDigitsRevGo (n + 1) n

/-- Model of Python str() on a nonnegative integer. -/
def natRepr (n : Nat) : String := String.mk (natDigitsRev n).reverse

/-- Model of Python str() on an int: a minus sign followed by the digits of
the magnitude when negative. -/
def intRepr (t : Int) : String :=
  if t < 0 then "-" ++ natRepr (-t).toNat else natRepr t.toNat

/-- Zero-padded two-digit rendering, as produced by strftime for the fields
m, d, H and M. -/
def pad2 (n : Nat) : String := if n < 10 then "0" ++ natRepr n else natRepr n

/-- Numeric value of a list of decimal digit characters. -/
def digitsToNat (l : List Char) : Nat :=
  l.foldl (fun a c => a * 10 + (c.toNat - 48)) 0

/-- All characters are ASCII decimal digits. -/
def allDigits (l : List Char) : Bool := l.all Char.isDigit

/-- Split a character list on a separator character, like Python str.split
with a one-character separator: n separators yield n+1 (possibly empty)
groups. -/
def splitOnCharList (sep : Char) (l : List Char) : List (List Char) :=
  l.foldr
    (fun c acc =>
      match acc with
      | [] => [[c]]
      | g :: gs => if c = sep then [] :: g :: gs else (c :: g) :: gs)
    [[]]

/-- Strip leading and trailing whitespace, as Python int()/float() do to
their string argument before parsing (ASCII whitespace suffices for the
inputs modelled here). -/
def pyStripWs (l : List Char) : List Char :=
  ((l.dropWhile Char.isWhitespace).reverse.dropWhile Char.isWhitespace).reverse

/-! # Calendar model (Howard Hinnant civil-date algorithms)

These model the conversions performed by the Python runtime between epoch
times / datetime objects and civil dates (time.gmtime, datetime arithmetic).
Dates are triples (year, month, day) with month and day one-based. -/

/-- Gregorian leap-year rule. -/
def isLeap (y : Int) : Bool :=
  (Int.emod y 4 = 0 ∧ Int.emod y 100 ≠ 0) ∨ Int.emod y 400 = 0

/-- Days in a month of a given year. -/
def daysInMonth (y : Int) (m : Nat) : Nat :=
  if m = 2 then (if isLeap y then 29 else 28)
  else if m = 4 ∨ m = 6 ∨ m = 9 ∨ m = 11 then 30
  else 31

/-- Serial day number (days since 1970-01-01) of a civil date. -/
def daysFromCivil (y : Int) (m d : Nat) : Int :=
  let y2 : Int := y - (if m ≤ 2 then 1 else 0)
  let era : Int := Int.fdiv y2 400
  let yoe : Nat := (y2 - era * 400).toNat
  let mp : Nat := if 2 < m then m - 3 else m + 9
  let doy : Nat := (153 * mp + 2) / 5 + d - 1
  let doe : Nat := yoe * 365 + yoe / 4 - yoe / 100 + doy
  era * 146097 + (doe : Int) - 719468

/-- Civil date of a serial day number (days since 1970-01-01). -/
def civilFromDays (z : Int) : Int × Nat × Nat :=
  let z2 : Int := z + 719468
  let era : Int := Int.fdiv z2 146097
  let doe : Nat := (z2 - era * 146097).toNat
  let yoe : Nat := (doe - doe / 1460 + doe / 36524 - doe / 146096) / 365
  let doy : Nat := doe - (365 * yoe + yoe / 4 - yoe / 100)
  let mp : Nat := (5 * doy + 2) / 153
  let d : Nat := doy - (153 * mp + 2) / 5 + 1
  let m : Nat := if mp < 10 then mp + 3 else mp - 9
  ((yoe : Int) + era * 400 + (if m ≤ 2 then 1 else 0), m, d)

/-- Model of time.strftime with format string of the shape YYYY-MM-DD HH:MM
applied to time.gmtime t: the UTC civil date and clock minute of an epoch
second count.  gmtime uses floor division into days. -/
def formatEpochUTC (t : Int) : String :=
  let days := Int.fdiv t 86400
  let sod : Nat := (Int.emod t 86400).toNat
  let c := civilFromDays days
  intRepr c.1 ++ "-" ++ pad2 c.2.1 ++ "-" ++ pad2 c.2.2 ++ " " ++
    pad2 (sod / 3600) ++ ":" ++ pad2 (sod % 3600 / 60)

/-- Model of datetime.strftime with format string YYYY-MM-DD on a date. -/
def formatDate (c : Int × Nat × Nat) : String :=
  intRepr c.1 ++ "-" ++ pad2 c.2.1 ++ "-" ++ pad2 c.2.2

/-- Model of datetime.datetime.strptime with format YYYY-MM-DD, returning the
parsed date or none on ValueError.  CPython matches the year as exactly four
digits and month/day as one or two digits, requires the whole string to be
consumed, and validates the calendar date (month range and day-of-month range
for the given year). -/
def parseDate (s : String) : Option (Int × Nat × Nat) :=
  match splitOnCharList (Char.ofNat 45) s.data with
  | [ys, ms, ds] =>
    if ys.length = 4 ∧ allDigits ys ∧
        1 ≤ ms.length ∧ ms.length ≤ 2 ∧ allDigits ms ∧
        1 ≤ ds.length ∧ ds.length ≤ 2 ∧ allDigits ds then
      let y : Int := digitsToNat ys
      let m := digitsToNat ms
      let d := digitsToNat ds
      if 1 ≤ m ∧ m ≤ 12 ∧ 1 ≤ d ∧ d ≤ daysInMonth y m then some (y, m, d)
      else none
    else none
  | _ => none

/-! # Python value model -/

/-- Python scalar values as they occur in this repository: None, int, float
(carried as the exact rational value) and str. -/
inductive PyVal where
  | none
  | int (n : Int)
  | float (q : ℚ)
  | str (s : String)
deriving DecidableEq, Repr

/-- Python truthiness of a scalar: None, zero and the empty string are
falsy. -/
def pyTruthy (v : PyVal) : Bool :=
  match v with
  | .none => false
  | .int n => n ≠ 0
  | .float q => q ≠ 0
  | .str s => s ≠ ""

/-- Fractional decimal digits of num/den (0 ≤ num < den), fuel-bounded;
the expansion of a Python float value always terminates within the fuel
used below. -/
def fracDigitsGo : Nat → Nat → Nat → List Char
  | 0, _, _ => []
  | fuel + 1, num, den =>
    if num = 0 then []
    else Char.ofNat (48 + num * 10 / den) :: fracDigitsGo fuel (num * 10 % den) den

/-- Model of Python str() on a float value: sign, integer part, a decimal
point, and the (terminating) fractional expansion.  Python prints the
shortest decimal that round-trips; for the float values this repository
handles the two agree, and no claim below depends on this rendering. -/
def ratRepr (q : ℚ) : String :=
  let sign := if q.num < 0 then "-" else ""
  let a := q.num.natAbs
  let ip := a / q.den
  let fp := a % q.den
  sign ++ natRepr ip ++ "." ++
    (if fp = 0 then "0" else String.mk (fracDigitsGo 1200 fp q.den))

/-- Model of Python str() on a scalar. -/
def pyStr (v : PyVal) : String :=
  match v with
  | .none => "None"
  | .int n => intRepr n
  | .float q => ratRepr q
  | .str s => s

/-- Model of Python int() applied to a float: truncation toward zero. -/
def ratTrunc (q : ℚ) : Int := Int.tdiv q.num (q.den : Int)

/-- Model of Python int() applied to a string: optional surrounding
whitespace, an optional sign, then a nonempty run of decimal digits;
none models the ValueError raised otherwise.  (Underscore digit grouping
and non-ASCII digits, which CPython also accepts, are not modelled; no
claim depends on them.) -/
def pyIntOfString (s : String) : Option Int :=
  let l := pyStripWs s.data
  match l with
  | c :: rest =>
    if c = Char.ofNat 43 then
      if rest ≠ [] ∧ allDigits rest then some (digitsToNat rest) else Option.none
    else if c = Char.ofNat 45 then
      if rest ≠ [] ∧ allDigits rest then some (-(digitsToNat rest : Int)) else Option.none
    else
      if allDigits l then some (digitsToNat l) else Option.none
  | [] => Option.none

/-- Parse an unsigned decimal mantissa: digits, an optional point, optional
further digits; at least one digit overall.  Returns the value and the
unconsumed remainder. -/
def parseMantissa (l : List Char) : Option (ℚ × List Char) :=
  let ip := l.takeWhile Char.isDigit
  let r := l.dropWhile Char.isDigit
  match r with
  | c :: r2 =>
    if c = Char.ofNat 46 then
      let fp := r2.takeWhile Char.isDigit
      let r3 := r2.dropWhile Char.isDigit
      if ip = [] ∧ fp = [] then Option.none
      else some ((digitsToNat ip : ℚ) + (digitsToNat fp : ℚ) / (10 : ℚ) ^ fp.length, r3)
    else if ip = [] then Option.none else some ((digitsToNat ip : ℚ), r)
  | [] => if ip = [] then Option.none else some ((digitsToNat ip : ℚ), [])

/-- Model of Python float() applied to a string: optional surrounding
whitespace, optional sign, decimal mantissa, optional exponent part; none
models the ValueError raised otherwise.  (The inf/nan spellings CPython also
accepts are not modelled; no claim depends on them.) -/
def pyFloatOfString (s : String) : Option ℚ :=
  let l := pyStripWs s.data
  let (sgn, l2) : ℚ × List Char :=
    match l with
    | c :: rest =>
      if c = Char.ofNat 43 then (1, rest)
      else if c = Char.ofNat 45 then (-1, rest)
      else (1, l)
    | [] => (1, [])
  match parseMantissa l2 with
  | Option.none => Option.none
  | some (q, rest) =>
    match rest with
    | [] => some (sgn * q)
    | e :: es =>
      if e = Char.ofNat 101 ∨ e = Char.ofNat 69 then
        let (esgn, edig) : Bool × List Char :=
          match es with
          | c :: rest2 =>
            if c = Char.ofNat 43 then (false, rest2)
            else if c = Char.ofNat 45 then (true, rest2)
            else (false, es)
          | [] => (false, [])
        if edig ≠ [] ∧ allDigits edig then
          let ex : Int := if esgn then -(digitsToNat edig : Int) else (digitsToNat edig : Int)
          some (sgn * q * (10 : ℚ) ^ ex)
        else Option.none
      else Option.none

/-! # DataCleaning (src/src/utils.py) -/

namespace DataCleaning

/-- Model of isinstance(val, int) failing followed by int(val): coerce a
scalar to an int the way check_int and check_epoch do.  int(None) raises
TypeError (none); int() of an unparseable string raises ValueError (none). -/
def pyToIntCoerce (v : PyVal) : Option Int :=
  match v with
  | .int n => some n
  | .float q => some (ratTrunc q)
  | .str s => pyIntOfString s
  | .none => Option.none

/-- DataCleaning.check_int: pass an int through unchanged, otherwise attempt
int(val); on any exception the result is None. -/
def check_int (v : PyVal) : Option Int := pyToIntCoerce v

/-- DataCleaning.check_float: pass a float through unchanged, otherwise
attempt float(val); on any exception the result is None. -/
def check_float (v : PyVal) : Option ℚ :=
  match v with
  | .float q => some q
  | .int n => some ((n : ℚ))
  | .str s => pyFloatOfString s
  | .none => Option.none

/-- Remove every backslash character: model of str.replace applied with a
one-character pattern and empty replacement. -/
def stripBackslash (s : String) : String :=
  String.mk (s.data.filter (fun c => c ≠ Char.ofNat 92))

/-- Python slicing s[0:L] by code points. -/
def pySlice (s : String) (L : Nat) : String := String.mk (s.data.take L)

/-- Arguments dictionary of a cleaning function as used by this repository:
the only key ever configured is length (for check_varchar). -/
inductive CleanArgs where
  | lengthArg (L : Nat)
deriving DecidableEq, Repr

/-- DataCleaning.check_varchar: str(val) sliced to args length, then
backslashes removed.  When args is None the subscript raises inside the try
block and the except branch yields None. -/
def check_varchar (args : Option CleanArgs) (v : PyVal) : Option String :=
  match args with
  | Option.none => Option.none
  | some (.lengthArg L) => some (stripBackslash (pySlice (pyStr v) L))

/-- DataCleaning.check_text: str(val) with backslashes removed.  str() never
raises on the scalars modelled here, so the except branch is unreachable. -/
def check_text (v : PyVal) : String := stripBackslash (pyStr v)

/-- DataCleaning.do_none: the identity cleaning function. -/
def do_none (v : PyVal) : PyVal := v

/-- DataCleaning.check_epoch: coerce to int; if str() of the value has
exactly 13 characters, replace it by int(value/1000) and format; if it has
exactly 10 characters, format; otherwise None.  int(value/1000) is Python
float division truncated toward zero; for every value of 13-character string
form the magnitude is below 10^13, where double division by 1000 followed by
int() agrees exactly with truncating integer division, so it is embedded as
Int.tdiv. -/
def check_epoch (v : PyVal) : Option String :=
  match pyToIntCoerce v with
  | Option.none => Option.none
  | some t =>
    if (intRepr t).length = 13 then some (formatEpochUTC (Int.tdiv t 1000))
    else if (intRepr t).length ≠ 10 then Option.none
    else some (formatEpochUTC t)

/-- DataCleaning.check_date: False when the argument is not a string,
otherwise whether datetime.strptime with format YYYY-MM-DD succeeds.  The
callers always pass the YYYY-MM-DD format, so the format parameter is
fixed. -/
def check_date (date_text : Option String) : Bool :=
  match date_text with
  | Option.none => false
  | some s => (parseDate s).isSome

end DataCleaning

/-! # Field cleaning pipeline (clean_data in src/src/CryptoSources.py) -/

/-- Identifiers of the cleaning functions this repository configures;
clean_data selects one by name via getattr on DataCleaning. -/
inductive CleaningFunc where
  | check_int
  | check_float
  | check_varchar
  | check_text
  | do_none
  | check_epoch
deriving DecidableEq, Repr

/-- One entry of the configured fields mapping: the cleaning function name,
its optional args dictionary, and the output column name. -/
structure FieldSpec where
  cleaning_func : CleaningFunc
  args : Option DataCleaning.CleanArgs
  mapped_name : String
deriving DecidableEq, Repr

/-- The fields mapping of a source config, in declared (insertion) order;
keys are unique in the configuration file. -/
abbrev Fields := List (String × FieldSpec)

/-- A record: a Python dict from field name to scalar, in insertion order
with unique keys. -/
abbrev Record := List (String × PyVal)

/-- Model of record.get(var, None). -/
def pyGet (r : Record) (k : String) : PyVal :=
  (List.lookup k r).getD PyVal.none

/-- Dispatch of getattr(DataCleaning, func)(val=val, args=...), with the
Option results of the cleaning functions embedded back into PyVal (a Python
None result becomes PyVal.none). -/
def applyCleaning (f : CleaningFunc) (args : Option DataCleaning.CleanArgs)
    (v : PyVal) : PyVal :=
  match f with
  | .check_int => (DataCleaning.check_int v).elim PyVal.none PyVal.int
  | .check_float => (DataCleaning.check_float v).elim PyVal.none PyVal.float
  | .check_varchar => (DataCleaning.check_varchar args v).elim PyVal.none PyVal.str
  | .check_text => PyVal.str (DataCleaning.check_text v)
  | .do_none => DataCleaning.do_none v
  | .check_epoch => (DataCleaning.check_epoch v).elim PyVal.none PyVal.str

/-- The cleaned record built for one raw record: the loop body of
clean_data.  The base dict holds every configured field (initially None) and
each field is overwritten with the cleaned value of the raw field: the
cleaning function runs only when the raw value is truthy, otherwise the
cleaned value is None.  With unique configured field names the resulting
dict is this map over the configuration. -/
def cleanRecord (fields : Fields) (record : Record) : Record :=
  fields.map (fun p =>
    let val := pyGet record p.1
    (p.1, if pyTruthy val then applyCleaning p.2.cleaning_func p.2.args val
          else PyVal.none))

/-- clean_data: clean every record of the list against the configured
fields. -/
def clean_data (data : List Record) (fields : Fields) : List Record :=
  data.map (cleanRecord fields)

/-! # Row projection shared by both adapters -/

/-- Insert into an ordered dict: a later assignment to an existing key
overwrites the value in place, a new key is appended.  Models Python dict
construction order. -/
def dictInsert (d : List (String × String)) (k v : String) :
    List (String × String) :=
  if d.any (fun p => p.1 = k) then
    d.map (fun p => if p.1 = k then (k, v) else p)
  else d ++ [(k, v)]

/-- The field_map dict comprehension of both main() methods: mapped column
name to original field name. -/
def field_map (fields : Fields) : List (String × String) :=
  fields.foldl (fun d p => dictInsert d p.2.mapped_name p.1) []

/-- table_fields: the keys of field_map in order. -/
def table_fields (fields : Fields) : List String :=
  (field_map fields).map Prod.fst

/-- The uniform result dict of a main() method: column names and rows. -/
structure ResultSet where
  fields : List String
  data : List (List PyVal)
deriving DecidableEq, Repr

/-- The projection loop shared verbatim by Coindesk.main and Poloniex.main:
for each cleaned record emit the values in table_fields order and append the
queried ticker and the source name; append the two identifying column names
to the field list.  Dict subscripts are modelled as lookups with a None
default: in main every subscript hits, since cleaned records contain every
configured field name and the values of field_map are configured field
names. -/
def projectResults (fields : Fields) (ticker source : String)
    (cleaned : List Record) : ResultSet :=
  let fm := field_map fields
  let tf := table_fields fields
  { fields := tf ++ ["ticker", "data_source"],
    data := cleaned.map (fun record =>
      tf.map (fun key => pyGet record ((List.lookup key fm).getD "")) ++
        [PyVal.str ticker, PyVal.str source]) }

/-! # Date validation shared by both adapters

Coindesk._validate_dates and Poloniex._validate_dates are textually
identical; both are embedded as the single function validate_dates below.
datetime.datetime.today() is modelled by the local civil date (a day number
would also do) plus the elapsed part of the day, so the comparison of a
parsed midnight datetime against today() is faithful. -/

/-- Model of the comparison strptime(d) > today_dt, where the parsed
datetime sits at midnight of day number dn and today_dt is day number tn
plus tod (the elapsed fraction of the day, nonnegative). -/
def dtAfterToday (dn tn : Int) (tod : Nat) : Bool :=
  tn < dn ∨ (tn = dn ∧ (0 : Nat) > tod)

/-- Day number of a parsed date triple. -/
def dayNum (c : Int × Nat × Nat) : Int := daysFromCivil c.1 c.2.1 c.2.2

/-- The shared _validate_dates body: returns the validated
(start_date, end_date) strings.  A missing or unparseable date falls back to
the formatted default (yesterday for start, today for end); a parsed date
after today() is replaced by the default; otherwise the original string is
kept unchanged. -/
def validate_dates (today : Int × Nat × Nat) (tod : Nat)
    (start_date end_date : Option String) : String × String :=
  let todayN := dayNum today
  let todayStr := formatDate today
  let yestStr := formatDate (civilFromDays (todayN - 1))
  let start :=
    match start_date with
    | Option.none => yestStr
    | some s =>
      match parseDate s with
      | Option.none => yestStr
      | some d => if dtAfterToday (dayNum d) todayN tod then yestStr else s
  let stop :=
    match end_date with
    | Option.none => todayStr
    | some s =>
      match parseDate s with
      | Option.none => todayStr
      | some d => if dtAfterToday (dayNum d) todayN tod then todayStr else s
  (start, stop)

/-- convert_to_epoch (src/src/utils.py): mktime(strptime(date)) for a
YYYY-MM-DD string.  mktime interprets the parsed midnight in local time;
the local-timezone offset is a parameter.  none models the ValueError of
strptime on an unparseable string (never reached by the callers, which pass
validated dates). -/
def convert_to_epoch (tzOff : Int) (date : String) : Option Int :=
  (parseDate date).map (fun d => dayNum d * 86400 + tzOff)

/-! # Coindesk adapter -/

namespace Coindesk

/-- The allowed tickers hard-coded in Coindesk.__init__. -/
def tickers : List String := ["USD", "ETH"]

/-- The default ticker hard-coded in Coindesk.__init__. -/
def default_ticker : String := "USD"

/-- Coindesk._validate_ticker: substitute the default on a ticker outside
the allow-list (logged, never raising). -/
def validate_ticker (ticker : String) : String :=
  if ticker ∈ tickers then ticker else default_ticker

/-- The adapter state established by Coindesk.__init__. -/
structure State where
  ticker : String
  start_date : String
  end_date : String
deriving DecidableEq, Repr

/-- Coindesk.__init__ after config loading: validate dates, then validate
the ticker.  Construction is total (it never raises). -/
def init (today : Int × Nat × Nat) (tod : Nat) (ticker : String)
    (start_date end_date : Option String) : State :=
  let d := validate_dates today tod start_date end_date
  { ticker := validate_ticker ticker, start_date := d.1, end_date := d.2 }

/-- Outcome of the fetch/parse boundary of Coindesk.main: the fetch can
fail (get_response returns None), the envelope/eval parse can fail
(_parse_response returns None), or it yields the list of bpi entries, each a
pair of positional values (timestamp, price). -/
inductive Fetched where
  | noResp
  | parseFail
  | parsed (raw : List (PyVal × PyVal))
deriving DecidableEq, Repr

/-- Coindesk.main given the fetch/parse outcome: on either failure return
None; otherwise build the raw records {timestamp, price}, clean them, and
project.  The source name is the hard-coded string coindesk. -/
def main (fields : Fields) (ticker : String) (fetched : Fetched) :
    Option ResultSet :=
  match fetched with
  | .noResp => Option.none
  | .parseFail => Option.none
  | .parsed raw =>
    let data : List Record :=
      raw.map (fun p => [("timestamp", p.1), ("price", p.2)])
    some (projectResults fields ticker "coindesk" (clean_data data fields))

end Coindesk

/-! # Poloniex adapter -/

namespace Poloniex

/-- Poloniex._validate_ticker: a ticker without an underscore, a base not in
the configured tickers dict, or a quote not in the base entry raises; the
error value carries the message family.  tickers is the
config tickers mapping base ticker to allowed quote tickers. -/
def validate_ticker (tickers : List (String × List String)) (ticker : String) :
    Except String Unit :=
  if ¬ ticker.data.contains (Char.ofNat 95) then
    Except.error "Invalid ticker supplied. Ticker must be in format ticker1_ticker2"
  else
    let parts := (splitOnCharList (Char.ofNat 95) ticker.data).map String.mk
    let base := parts.getD 0 ""
    let quote := parts.getD 1 ""
    match List.lookup base tickers with
    | Option.none => Except.error "Base ticker not in Poloniex supported base tickers"
    | some quotes =>
      if quote ∈ quotes then Except.ok ()
      else Except.error "Quote ticker not in Poloniex supported tickers for base ticker"

/-- The adapter state established by Poloniex.__init__. -/
structure State where
  ticker : String
  start_epoch : Int
  end_epoch : Int
  period : Int
deriving DecidableEq, Repr

/-- Poloniex.__init__ after config loading: validate dates, convert them to
epoch seconds (local time, offset tzOff), then validate the ticker pair,
raising on an invalid pair. -/
def init (tickers : List (String × List String)) (today : Int × Nat × Nat)
    (tod : Nat) (ticker : String) (start_date end_date : Option String)
    (period tzOff : Int) : Except String State :=
  let d := validate_dates today tod start_date end_date
  let se := (convert_to_epoch tzOff d.1).getD 0
  let ee := (convert_to_epoch tzOff d.2).getD 0
  match validate_ticker tickers ticker with
  | Except.error msg => Except.error msg
  | Except.ok _ => Except.ok ⟨ticker, se, ee, period⟩

/-- Outcome of the fetch/parse boundary of Poloniex.main: fetch failure,
JSON parse failure, an API error payload (a dict carrying an error key), or
a list of records. -/
inductive Fetched where
  | noResp
  | parseFail
  | errorPayload (msg : String)
  | parsed (data : List Record)
deriving Repr

/-- Poloniex.main given the fetch/parse outcome: on fetch failure, parse
failure or an error payload return None; otherwise clean and project.  The
source name is the hard-coded string poloniex. -/
def main (fields : Fields) (ticker : String) (fetched : Fetched) :
    Option ResultSet :=
  match fetched with
  | .noResp => Option.none
  | .parseFail => Option.none
  | .errorPayload _ => Option.none
  | .parsed data =>
    some (projectResults fields ticker "poloniex" (clean_data data fields))

end Poloniex

/-! # Decimal-length lemmas -/

theorem natDigitsRevGo_length :
    ∀ (fuel n : Nat), n < fuel →
      (natDigitsRevGo fuel n).length = Nat.log 10 n + 1 := by
  intro fuel
  induction fuel with
  | zero => intro n h; omega
  | succ f ih =>
    intro n h
    rw [natDigitsRevGo]
    by_cases h10 : n < 10
    · rw [if_pos h10]
      have hlog : Nat.log 10 n = 0 := Nat.log_eq_zero_iff.mpr (Or.inl h10)
      simp [hlog]
    · rw [if_neg h10]
      have hdiv : n / 10 < n := Nat.div_lt_self (by omega) (by omega)
      have hf : n / 10 < f := by omega
      have h1 : Nat.log 10 (n / 10) = Nat.log 10 n - 1 := Nat.log_div_base 10 n
      have h2 : 0 < Nat.log 10 n := Nat.log_pos (by omega) (by omega)
      simp only [List.length_cons, ih _ hf]
      omega

theorem natRepr_length (n : Nat) : (natRepr n).length = Nat.log 10 n + 1 := by
  have h := natDigitsRevGo_length (n + 1) n (Nat.lt_succ_self n)
  simpa [natRepr, natDigitsRev, String.length] using h

theorem intRepr_ofNat (n : Nat) : intRepr (Int.ofNat n) = natRepr n := by
  have h : ¬ Int.ofNat n < 0 := not_lt.mpr (Int.ofNat_nonneg n)
  simp [intRepr, h]

theorem intRepr_length_neg (t : Int) (h : t < 0) :
    (intRepr t).length = Nat.log 10 (-t).toNat + 2 := by
  unfold intRepr
  rw [if_pos h, String.length_append, natRepr_length]
  simp [String.length]
  omega

theorem log10_of_bounds {n k : Nat} (h1 : 10 ^ k ≤ n) (h2 : n < 10 ^ (k + 1)) :
    Nat.log 10 n = k :=
  Nat.log_eq_of_pow_le_of_lt_pow h1 h2

theorem bounds_of_log10 {n : Nat} (hn : n ≠ 0) :
    10 ^ Nat.log 10 n ≤ n ∧ n < 10 ^ (Nat.log 10 n + 1) :=
  ⟨Nat.pow_log_le_self 10 hn, Nat.lt_pow_succ_log_self (by omega) n⟩

/-! # Claim C4: non-numeric strings yield None from check_int and
check_float -/

/-- Claim C4: for every string on which the Python numeric parses fail (a
non-numeric string), the to-integer cleaner and the to-float cleaner both
return None; the try/except bodies make both total, so neither raises. -/
theorem check_int_check_float_nonnumeric (s : String)
    (hi : pyIntOfString s = Option.none)
    (hf : pyFloatOfString s = Option.none) :
    DataCleaning.check_int (.str s) = Option.none ∧
    DataCleaning.check_float (.str s) = Option.none := by
  constructor
  · simp [DataCleaning.check_int, DataCleaning.pyToIntCoerce, hi]
  · simp [DataCleaning.check_float, hf]

/-- Witness for C4 at the concrete non-numeric string abc. -/
theorem check_int_check_float_nonnumeric_witness :
    DataCleaning.check_int (.str "abc") = Option.none ∧
    DataCleaning.check_float (.str "abc") = Option.none :=
  check_int_check_float_nonnumeric "abc" (by decide) (by decide)

/-! # Claim C7: Coindesk ticker defaulting -/

/-- Claim C7: Coindesk construction is a total function (it never raises);
a ticker outside the allow-list USD, ETH is replaced by the default USD, and
a ticker in the allow-list is kept unchanged. -/
theorem coindesk_ticker_defaulting (today : Int × Nat × Nat) (tod : Nat)
    (sd ed : Option String) (t : String) :
    (t ∉ Coindesk.tickers →
      (Coindesk.init today tod t sd ed).ticker = "USD") ∧
    (t ∈ Coindesk.tickers →
      (Coindesk.init today tod t sd ed).ticker = t) := by
  constructor
  · intro h
    simp [Coindesk.init, Coindesk.validate_ticker, h, Coindesk.default_ticker]
  · intro h
    simp [Coindesk.init, Coindesk.validate_ticker, h]

/-- Witness for C7 at the concrete out-of-list ticker GBP and the in-list
ticker ETH. -/
theorem coindesk_ticker_defaulting_witness :
    (Coindesk.init (2017, 9, 6) 0 "GBP" Option.none Option.none).ticker = "USD" ∧
    (Coindesk.init (2017, 9, 6) 0 "ETH" Option.none Option.none).ticker = "ETH" :=
  ⟨(coindesk_ticker_defaulting (2017, 9, 6) 0 Option.none Option.none "GBP").1
      (by decide),
   (coindesk_ticker_defaulting (2017, 9, 6) 0 Option.none Option.none "ETH").2
      (by decide)⟩

/-! # Claim C8: an empty well-formed data list yields a zero-row ResultSet,
not the absence signal -/

/-- Claim C8: when the fetch succeeds and the response parses to a
well-formed empty record list, both main() methods return a ResultSet with
zero rows and the full configured column-name sequence plus the two
identifying columns, distinguishable from the None returned on a failed
fetch. -/
theorem mains_empty_data (fields : Fields) (ticker : String) :
    Coindesk.main fields ticker (.parsed []) =
      some ⟨table_fields fields ++ ["ticker", "data_source"], []⟩ ∧
    Poloniex.main fields ticker (.parsed []) =
      some ⟨table_fields fields ++ ["ticker", "data_source"], []⟩ :=
  ⟨rfl, rfl⟩

/-! # Claim C1: the bounded-string cleaner -/

/-- Claim C1 as amended: on any value whose string form is longer than the
configured bound, check_varchar returns a string of length AT MOST the
bound containing no backslash characters; the length equals the bound
exactly when the first bound-many characters of the string form contain no
backslash.  The source truncates first and strips backslashes afterwards,
so backslashes inside the kept prefix shorten the result below the bound. -/
theorem check_varchar_bounded (v : PyVal) (L : Nat)
    (h : L < (pyStr v).length) :
    ∃ r, DataCleaning.check_varchar (some (.lengthArg L)) v = some r ∧
      r.length ≤ L ∧
      (∀ c ∈ r.data, c ≠ Char.ofNat 92) ∧
      ((∀ c ∈ (pyStr v).data.take L, c ≠ Char.ofNat 92) → r.length = L) := by
  refine ⟨_, rfl, ?_, ?_, ?_⟩
  · show (((pyStr v).data.take L).filter _).length ≤ L
    calc (((pyStr v).data.take L).filter (fun c => c ≠ Char.ofNat 92)).length
        ≤ ((pyStr v).data.take L).length := List.length_filter_le _ _
      _ ≤ L := List.length_take_le _ _
  · intro c hc
    have := List.of_mem_filter hc
    simpa using this
  · intro hnb
    show (((pyStr v).data.take L).filter _).length = L
    rw [List.filter_eq_self.mpr (fun c hc => by simpa using hnb c hc)]
    rw [List.length_take]
    have : (pyStr v).length = (pyStr v).data.length := rfl
    omega

/-- Witness for C1 (amended) at the concrete string abcdef with bound 3. -/
theorem check_varchar_bounded_witness :
    3 < (pyStr (.str "abcdef")).length ∧
    ∃ r, DataCleaning.check_varchar (some (.lengthArg 3)) (.str "abcdef") = some r ∧
      r.length ≤ 3 ∧
      (∀ c ∈ r.data, c ≠ Char.ofNat 92) ∧
      ((∀ c ∈ (pyStr (PyVal.str "abcdef")).data.take 3, c ≠ Char.ofNat 92) →
        r.length = 3) :=
  ⟨by decide, check_varchar_bounded (.str "abcdef") 3 (by decide)⟩

/-- Counterexample to C1 as stated: the five-character string ab-backslash-cd
with bound 4 is longer than the bound, yet the cleaner returns abc, of length
3, not 4: the code truncates to the bound before stripping backslashes. -/
theorem check_varchar_exact_len_counterexample :
    4 < (pyStr (.str "ab\\cd")).length ∧
    DataCleaning.check_varchar (some (.lengthArg 4)) (.str "ab\\cd") = some "abc" ∧
    ("abc" : String).length ≠ 4 :=
  ⟨by decide, by decide, by decide⟩

/-! # Claim C3: falsy raw values become None before any coercion runs -/

/-- Looking up a configured field in the cleaned record yields the cleaned
value of that field, by induction over the configuration list (with unique
configured field names, as Python dict keys are). -/
theorem lookup_cleanRecord (fields : Fields) (record : Record) (var : String)
    (spec : FieldSpec) (hnd : (fields.map Prod.fst).Nodup)
    (hmem : (var, spec) ∈ fields) :
    List.lookup var (cleanRecord fields record) =
      some (if pyTruthy (pyGet record var)
            then applyCleaning spec.cleaning_func spec.args (pyGet record var)
            else PyVal.none) := by
  induction fields with
  | nil => cases hmem
  | cons p ps ih =>
    rcases List.mem_cons.mp hmem with hp | hps
    · subst hp
      simp [cleanRecord, List.lookup]
    · have hne : var ≠ p.1 := by
        intro he
        have hv : var ∈ ps.map Prod.fst := List.mem_map_of_mem Prod.fst hps
        simp only [List.map_cons, List.nodup_cons] at hnd
        exact hnd.1 (he ▸ hv)
      have hnd2 : (ps.map Prod.fst).Nodup := by
        simp only [List.map_cons, List.nodup_cons] at hnd
        exact hnd.2
      have hbe : (var == p.1) = false := beq_eq_false_iff_ne.mpr hne
      simpa [cleanRecord, List.lookup, hbe] using ih hnd2 hps

/-- Claim C3: in clean_data, for every record and configured field, a falsy
raw value (absent key, None, empty string, numeric zero) yields the cleaned
value None — the cleaning function of the field is irrelevant, expressing
that no coercion function is invoked — and a truthy raw value yields exactly
the result of the configured coercion function on it. -/
theorem clean_data_falsy_policy (fields : Fields) (data : List Record)
    (record : Record) (var : String) (spec : FieldSpec)
    (hrec : record ∈ data) (hmem : (var, spec) ∈ fields)
    (hnd : (fields.map Prod.fst).Nodup) :
    cleanRecord fields record ∈ clean_data data fields ∧
    List.lookup var (cleanRecord fields record) =
      some (if pyTruthy (pyGet record var)
            then applyCleaning spec.cleaning_func spec.args (pyGet record var)
            else PyVal.none) :=
  ⟨List.mem_map_of_mem _ hrec, lookup_cleanRecord fields record var spec hnd hmem⟩

/-- Witness for C3: a record holding the falsy value 0 for field a and no
value for field b; both cleaned values are None and the configured
check_int is never consulted. -/
theorem clean_data_falsy_policy_witness :
    cleanRecord
        [("a", ⟨CleaningFunc.check_int, Option.none, "A"⟩),
         ("b", ⟨CleaningFunc.check_int, Option.none, "B"⟩)]
        [("a", PyVal.int 0)] ∈
      clean_data [[("a", PyVal.int 0)]]
        [("a", ⟨CleaningFunc.check_int, Option.none, "A"⟩),
         ("b", ⟨CleaningFunc.check_int, Option.none, "B"⟩)] ∧
    List.lookup "a"
        (cleanRecord
          [("a", ⟨CleaningFunc.check_int, Option.none, "A"⟩),
           ("b", ⟨CleaningFunc.check_int, Option.none, "B"⟩)]
          [("a", PyVal.int 0)]) =
      some (if pyTruthy (pyGet [("a", PyVal.int 0)] "a")
            then applyCleaning CleaningFunc.check_int Option.none
                  (pyGet [("a", PyVal.int 0)] "a")
            else PyVal.none) :=
  clean_data_falsy_policy
    [("a", ⟨CleaningFunc.check_int, Option.none, "A"⟩),
     ("b", ⟨CleaningFunc.check_int, Option.none, "B"⟩)]
    [[("a", PyVal.int 0)]] [("a", PyVal.int 0)] "a"
    ⟨CleaningFunc.check_int, Option.none, "A"⟩
    (by decide) (by decide) (by decide)

/-! # Claim C5: the ResultSet row/column invariant of both main methods -/

/-- Shape of the shared projection: the column list ends with the two
identifying column names, and every row has exactly as many values as there
are columns and ends with the queried ticker and the source name. -/
theorem projectResults_shape (fields : Fields) (ticker source : String)
    (cleaned : List Record) :
    (∃ cols, (projectResults fields ticker source cleaned).fields =
        cols ++ ["ticker", "data_source"]) ∧
    ∀ row ∈ (projectResults fields ticker source cleaned).data,
      row.length = (projectResults fields ticker source cleaned).fields.length ∧
      ∃ pre, row = pre ++ [PyVal.str ticker, PyVal.str source] := by
  refine ⟨⟨table_fields fields, rfl⟩, ?_⟩
  intro row hrow
  simp only [projectResults] at hrow
  obtain ⟨record, _, hr⟩ := List.mem_map.mp hrow
  refine ⟨?_, ⟨_, hr.symm⟩⟩
  rw [← hr]
  simp [projectResults, table_fields]

/-- Claim C5: whenever either main() returns a ResultSet (not the absence
signal None), every row has exactly as many values as the column-name
sequence, the identifying columns ticker and data_source are the final two
column names, and the queried ticker and the canonical source name are the
final two values of every row. -/
theorem mains_row_invariant :
    (∀ (fields : Fields) (ticker : String) (fp : Coindesk.Fetched)
        (rs : ResultSet), Coindesk.main fields ticker fp = some rs →
        (∃ cols, rs.fields = cols ++ ["ticker", "data_source"]) ∧
        ∀ row ∈ rs.data, row.length = rs.fields.length ∧
          ∃ pre, row = pre ++ [PyVal.str ticker, PyVal.str "coindesk"]) ∧
    (∀ (fields : Fields) (ticker : String) (fp : Poloniex.Fetched)
        (rs : ResultSet), Poloniex.main fields ticker fp = some rs →
        (∃ cols, rs.fields = cols ++ ["ticker", "data_source"]) ∧
        ∀ row ∈ rs.data, row.length = rs.fields.length ∧
          ∃ pre, row = pre ++ [PyVal.str ticker, PyVal.str "poloniex"]) := by
  constructor
  · intro fields ticker fp rs h
    cases fp with
    | noResp => simp [Coindesk.main] at h
    | parseFail => simp [Coindesk.main] at h
    | parsed raw =>
      simp only [Coindesk.main, Option.some.injEq] at h
      rw [← h]
      exact projectResults_shape fields ticker "coindesk" _
  · intro fields ticker fp rs h
    cases fp with
    | noResp => simp [Poloniex.main] at h
    | parseFail => simp [Poloniex.main] at h
    | errorPayload m => simp [Poloniex.main] at h
    | parsed data =>
      simp only [Poloniex.main, Option.some.injEq] at h
      rw [← h]
      exact projectResults_shape fields ticker "poloniex" _

/-- Witness for C5: a one-record fetch through Coindesk.main with a
two-field configuration; the returned ResultSet satisfies the row and
column invariant. -/
theorem mains_row_invariant_witness :
    (∃ cols,
      (ResultSet.mk ["snap_time", "close", "ticker", "data_source"]
        [[PyVal.str "2017-07-14 02:40", PyVal.int 14, PyVal.str "USD",
          PyVal.str "coindesk"]]).fields = cols ++ ["ticker", "data_source"]) ∧
    ∀ row ∈ (ResultSet.mk ["snap_time", "close", "ticker", "data_source"]
        [[PyVal.str "2017-07-14 02:40", PyVal.int 14, PyVal.str "USD",
          PyVal.str "coindesk"]]).data,
      row.length = (ResultSet.mk ["snap_time", "close", "ticker", "data_source"]
        [[PyVal.str "2017-07-14 02:40", PyVal.int 14, PyVal.str "USD",
          PyVal.str "coindesk"]]).fields.length ∧
      ∃ pre, row = pre ++ [PyVal.str "USD", PyVal.str "coindesk"] :=
  mains_row_invariant.1
    [("timestamp", ⟨CleaningFunc.check_epoch, Option.none, "snap_time"⟩),
     ("price", ⟨CleaningFunc.check_int, Option.none, "close"⟩)]
    "USD" (.parsed [(PyVal.int 1500000000, PyVal.int 14)])
    (ResultSet.mk ["snap_time", "close", "ticker", "data_source"]
      [[PyVal.str "2017-07-14 02:40", PyVal.int 14, PyVal.str "USD",
        PyVal.str "coindesk"]])
    (by decide)

/-! # Claim C6: Poloniex ticker-pair validation raises exactly on pairs
outside the allow-list -/

/-- Evaluation of the pair validator on the literal pair BTC_ETH: the
underscore check and the split reduce, leaving only the quote-list test
against the configured entry for base BTC. -/
theorem validate_ticker_pair_btc_eth (t2 : List (String × List String))
    (qs : List String) (hb : List.lookup "BTC" t2 = some qs) :
    Poloniex.validate_ticker t2 "BTC_ETH" =
      (if "ETH" ∈ qs then Except.ok ()
       else Except.error
        "Quote ticker not in Poloniex supported tickers for base ticker") := by
  show (match List.lookup "BTC" t2 with
       | Option.none =>
          Except.error "Base ticker not in Poloniex supported base tickers"
       | some quotes =>
          if "ETH" ∈ quotes then Except.ok ()
          else Except.error
            "Quote ticker not in Poloniex supported tickers for base ticker") = _
  rw [hb]

/-- Evaluation of the pair validator on the literal pair BTC_XYZ. -/
theorem validate_ticker_pair_btc_xyz (t2 : List (String × List String))
    (qs : List String) (hb : List.lookup "BTC" t2 = some qs) :
    Poloniex.validate_ticker t2 "BTC_XYZ" =
      (if "XYZ" ∈ qs then Except.ok ()
       else Except.error
        "Quote ticker not in Poloniex supported tickers for base ticker") := by
  show (match List.lookup "BTC" t2 with
       | Option.none =>
          Except.error "Base ticker not in Poloniex supported base tickers"
       | some quotes =>
          if "XYZ" ∈ quotes then Except.ok ()
          else Except.error
            "Quote ticker not in Poloniex supported tickers for base ticker") = _
  rw [hb]

/-- Claim C6: with a configured allow-list whose entry for base BTC contains
ETH, Poloniex construction with pair BTC_ETH succeeds; with quote XYZ not in
the BTC entry, construction with pair BTC_XYZ raises. -/
theorem poloniex_pair_validation (tickers : List (String × List String))
    (qs : List String) (today : Int × Nat × Nat) (tod : Nat)
    (sd ed : Option String) (period tz : Int)
    (hb : List.lookup "BTC" tickers = some qs) :
    ("ETH" ∈ qs → ∃ st,
      Poloniex.init tickers today tod "BTC_ETH" sd ed period tz =
        Except.ok st) ∧
    ("XYZ" ∉ qs → ∃ msg,
      Poloniex.init tickers today tod "BTC_XYZ" sd ed period tz =
        Except.error msg) := by
  constructor
  · intro hq
    refine ⟨⟨"BTC_ETH",
      (convert_to_epoch tz (validate_dates today tod sd ed).1).getD 0,
      (convert_to_epoch tz (validate_dates today tod sd ed).2).getD 0,
      period⟩, ?_⟩
    simp only [Poloniex.init]
    rw [validate_ticker_pair_btc_eth tickers qs hb, if_pos hq]
  · intro hq
    refine ⟨"Quote ticker not in Poloniex supported tickers for base ticker", ?_⟩
    simp only [Poloniex.init]
    rw [validate_ticker_pair_btc_xyz tickers qs hb, if_neg hq]

/-- Witness for C6 at the concrete allow-list mapping BTC to ETH, LTC. -/
theorem poloniex_pair_validation_witness :
    (∃ st, Poloniex.init [("BTC", ["ETH", "LTC"])] (2017, 9, 6) 0 "BTC_ETH"
        Option.none Option.none 1800 14400 = Except.ok st) ∧
    (∃ msg, Poloniex.init [("BTC", ["ETH", "LTC"])] (2017, 9, 6) 0 "BTC_XYZ"
        Option.none Option.none 1800 14400 = Except.error msg) :=
  ⟨(poloniex_pair_validation [("BTC", ["ETH", "LTC"])] ["ETH", "LTC"]
      (2017, 9, 6) 0 Option.none Option.none 1800 14400 (by decide)).1
      (by decide),
   (poloniex_pair_validation [("BTC", ["ETH", "LTC"])] ["ETH", "LTC"]
      (2017, 9, 6) 0 Option.none Option.none 1800 14400 (by decide)).2
      (by decide)⟩

/-! # Claim C9: date defaulting and clamping at adapter construction -/

/-- The midnight-versus-now comparison holds exactly when the parsed date is
a strictly later calendar day than today (the elapsed part of the day can
never be negative). -/
theorem dtAfterToday_iff (dn tn : Int) (tod : Nat) :
    dtAfterToday dn tn tod = true ↔ tn < dn := by
  unfold dtAfterToday
  simp

/-- Claim C9: at every adapter construction (both adapters run the same
textually identical date validation), a missing or unparseable start date
becomes the formatted yesterday, a missing or unparseable end date becomes
the formatted today, a start date parsing strictly later than today is
clamped to yesterday, an end date parsing strictly later than today is
clamped to today, and in particular the literal start 2099-01-01 with no end
date yields (yesterday, today). -/
theorem validate_dates_contract (today : Int × Nat × Nat) (tod : Nat) :
    (∀ ed, (validate_dates today tod Option.none ed).1 =
      formatDate (civilFromDays (dayNum today - 1))) ∧
    (∀ s ed, parseDate s = Option.none →
      (validate_dates today tod (some s) ed).1 =
        formatDate (civilFromDays (dayNum today - 1))) ∧
    (∀ s d ed, parseDate s = some d → dayNum today < dayNum d →
      (validate_dates today tod (some s) ed).1 =
        formatDate (civilFromDays (dayNum today - 1))) ∧
    (∀ sd, (validate_dates today tod sd Option.none).2 = formatDate today) ∧
    (∀ s sd, parseDate s = Option.none →
      (validate_dates today tod sd (some s)).2 = formatDate today) ∧
    (∀ s d sd, parseDate s = some d → dayNum today < dayNum d →
      (validate_dates today tod sd (some s)).2 = formatDate today) ∧
    (dayNum today < dayNum ((2099 : Int), 1, 1) →
      validate_dates today tod (some "2099-01-01") Option.none =
        (formatDate (civilFromDays (dayNum today - 1)), formatDate today)) := by
  refine ⟨fun ed => rfl, ?_, ?_, fun sd => ?_, ?_, ?_, ?_⟩
  · intro s ed h
    simp only [validate_dates, h]
  · intro s d ed h hlt
    simp only [validate_dates, h]
    rw [if_pos ((dtAfterToday_iff _ _ _).mpr hlt)]
  · cases sd with
    | none => rfl
    | some s => simp only [validate_dates]
  · intro s sd h
    cases sd with
    | none => simp only [validate_dates, h]
    | some s2 => simp only [validate_dates, h]
  · intro s d sd h hlt
    cases sd with
    | none =>
      simp only [validate_dates, h]
      rw [if_pos ((dtAfterToday_iff _ _ _).mpr hlt)]
    | some s2 =>
      simp only [validate_dates, h]
      rw [if_pos ((dtAfterToday_iff _ _ _).mpr hlt)]
  · intro h
    simp only [validate_dates,
      show parseDate "2099-01-01" = some ((2099 : Int), 1, 1) by decide]
    rw [if_pos ((dtAfterToday_iff _ _ _).mpr h)]

/-- Witness for C9 at the concrete today 2017-09-06: the future start
2099-01-01 with no end date yields start 2017-09-05 and end 2017-09-06. -/
theorem validate_dates_contract_witness :
    validate_dates (2017, 9, 6) 0 (some "2099-01-01") Option.none =
      ("2017-09-05", "2017-09-06") :=
  ((validate_dates_contract ((2017 : Int), 9, 6) 0).2.2.2.2.2.2
      (by decide)).trans (by decide)

/-! # Claims C2 and C10: the epoch cleaner -/

theorem intRepr_nat_length (n : Nat) :
    (intRepr (Int.ofNat n)).length = Nat.log 10 n + 1 := by
  rw [intRepr_ofNat, natRepr_length]

/-- A nonnegative value whose decimal string has 13 characters lies in the
13-digit range. -/
theorem len13_bounds (n : Nat) (h : (intRepr (Int.ofNat n)).length = 13) :
    10 ^ 12 ≤ n ∧ n < 10 ^ 13 := by
  rw [intRepr_nat_length] at h
  have hlog : Nat.log 10 n = 12 := by omega
  have hn : n ≠ 0 := by
    intro h0
    rw [h0] at hlog
    simp at hlog
  have := bounds_of_log10 hn
  rw [hlog] at this
  exact this

/-- A value in the 10-digit range has a decimal string of 10 characters. -/
theorem len10_of_bounds (n : Nat) (h1 : 10 ^ 9 ≤ n) (h2 : n < 10 ^ 10) :
    (intRepr (Int.ofNat n)).length = 10 := by
  rw [intRepr_nat_length, log10_of_bounds h1 h2]

theorem pyToIntCoerce_int (n : Int) :
    DataCleaning.pyToIntCoerce (.int n) = some n := rfl

/-- Claim C2 as amended: for every input coercible to an int value t (an int,
a float, or a string parsed by int()), check_epoch formats t as a UTC
YYYY-MM-DD HH:MM string when str(t) has exactly 10 characters; when str(t)
has exactly 13 characters AND t is nonnegative the result equals the result
on t integer-divided by 1000; and when str(t) has any other length the
result is None.  (For a NEGATIVE t of 13-character string form the code
formats the truncated-toward-zero quotient directly, which the counterexample
shows can disagree with re-running the cleaner on the floor quotient.) -/
theorem check_epoch_contract (v : PyVal) (t : Int)
    (h : DataCleaning.pyToIntCoerce v = some t) :
    ((intRepr t).length = 10 →
      DataCleaning.check_epoch v = some (formatEpochUTC t)) ∧
    ((intRepr t).length = 13 → 0 ≤ t →
      DataCleaning.check_epoch v =
        DataCleaning.check_epoch (.int (Int.fdiv t 1000))) ∧
    ((intRepr t).length ≠ 10 → (intRepr t).length ≠ 13 →
      DataCleaning.check_epoch v = Option.none) := by
  refine ⟨?_, ?_, ?_⟩
  · intro h10
    simp only [DataCleaning.check_epoch, h]
    rw [if_neg (by omega), if_neg (by omega)]
  · intro h13 hpos
    obtain ⟨n, rfl⟩ : ∃ n : Nat, t = Int.ofNat n :=
      ⟨t.toNat, by rw [← Int.toNat_of_nonneg hpos]; simp⟩
    obtain ⟨hb1, hb2⟩ := len13_bounds n h13
    have hm1 : 10 ^ 9 ≤ n / 1000 := by
      rw [Nat.le_div_iff_mul_le (by norm_num)]
      calc 10 ^ 9 * 1000 = 10 ^ 12 := by norm_num
        _ ≤ n := hb1
    have hm2 : n / 1000 < 10 ^ 10 := by
      rw [Nat.div_lt_iff_lt_mul (by norm_num)]
      calc n < 10 ^ 13 := hb2
        _ = 10 ^ 10 * 1000 := by norm_num
    have hlen10 := len10_of_bounds (n / 1000) hm1 hm2
    have hfdiv : Int.fdiv (Int.ofNat n) 1000 = Int.ofNat (n / 1000) := by
      simpa [Int.ofNat_eq_natCast] using (Int.ofNat_fdiv n 1000).symm
    have htdiv : Int.tdiv (Int.ofNat n) 1000 = Int.ofNat (n / 1000) := by
      simpa [Int.ofNat_eq_natCast] using (Int.ofNat_tdiv n 1000).symm
    have hc1 : ¬ (intRepr (Int.ofNat (n / 1000))).length = 13 := by omega
    have hc2 : ¬ (intRepr (Int.ofNat (n / 1000))).length ≠ 10 := by omega
    simp only [DataCleaning.check_epoch, h, pyToIntCoerce_int, hfdiv, htdiv]
    rw [if_pos h13, if_neg hc1, if_neg hc2]
  · intro hn10 hn13
    simp only [DataCleaning.check_epoch, h]
    rw [if_neg hn13, if_pos hn10]

/-- Witness for C2 (amended) at the 13-character value 1500000000123: the
result agrees with the result on its integer quotient by 1000. -/
theorem check_epoch_contract_witness :
    DataCleaning.check_epoch (.int 1500000000123) =
      DataCleaning.check_epoch (.int (Int.fdiv 1500000000123 1000)) :=
  (check_epoch_contract (.int 1500000000123) 1500000000123 rfl).2.1
    (by decide) (by decide)

/-- Counterexample to C2 as stated: the negative value -999999999999 has a
13-character decimal string (and a 12-digit magnitude, so under either
reading of digit count the stated trichotomy misclassifies it): the code
formats it rather than returning None, and its result differs from the
result on the value integer-divided (floored) by 1000, which has an
11-character string and yields None. -/
theorem check_epoch_div_counterexample :
    (intRepr (-999999999999)).length = 13 ∧
    DataCleaning.check_epoch (.int (-999999999999)) ≠ Option.none ∧
    DataCleaning.check_epoch (.int (-999999999999)) ≠
      DataCleaning.check_epoch (.int (Int.fdiv (-999999999999) 1000)) :=
  ⟨by decide, by decide, by decide⟩

/-- Claim C10 as amended: a negative input whose MAGNITUDE has 10 or 13
digits yields None from check_epoch, because the minus sign makes the
decimal string 11 or 14 characters long; but not every negative input yields
None — a negative value whose string including the sign has exactly 10 or 13
characters is formatted (see the counterexample). -/
theorem check_epoch_negative_magnitude (v : PyVal) (t : Int)
    (h : DataCleaning.pyToIntCoerce v = some t) (hneg : t < 0)
    (hmag : (10 ^ 9 ≤ -t ∧ -t < 10 ^ 10) ∨ (10 ^ 12 ≤ -t ∧ -t < 10 ^ 13)) :
    DataCleaning.check_epoch v = Option.none := by
  have hlen := intRepr_length_neg t hneg
  have hp9 : (10 : Int) ^ 9 = 1000000000 := by norm_num
  have hp10 : (10 : Int) ^ 10 = 10000000000 := by norm_num
  have hp12 : (10 : Int) ^ 12 = 1000000000000 := by norm_num
  have hp13 : (10 : Int) ^ 13 = 10000000000000 := by norm_num
  rcases hmag with ⟨h1, h2⟩ | ⟨h1, h2⟩
  · rw [hp9] at h1
    rw [hp10] at h2
    have ha1 : (10 : Nat) ^ 9 ≤ (-t).toNat := by
      show 1000000000 ≤ (-t).toNat
      omega
    have ha2 : (-t).toNat < (10 : Nat) ^ 10 := by
      show (-t).toNat < 10000000000
      omega
    have hlog : Nat.log 10 (-t).toNat = 9 := log10_of_bounds ha1 ha2
    simp only [DataCleaning.check_epoch, h]
    rw [if_neg (by omega), if_pos (by omega)]
  · rw [hp12] at h1
    rw [hp13] at h2
    have ha1 : (10 : Nat) ^ 12 ≤ (-t).toNat := by
      show 1000000000000 ≤ (-t).toNat
      omega
    have ha2 : (-t).toNat < (10 : Nat) ^ 13 := by
      show (-t).toNat < 10000000000000
      omega
    have hlog : Nat.log 10 (-t).toNat = 12 := log10_of_bounds ha1 ha2
    simp only [DataCleaning.check_epoch, h]
    rw [if_neg (by omega), if_pos (by omega)]

/-- Witness for C10 (amended) at the negative 10-digit-magnitude value
-1234567890, whose 11-character string yields None. -/
theorem check_epoch_negative_magnitude_witness :
    DataCleaning.check_epoch (.int (-1234567890)) = Option.none :=
  check_epoch_negative_magnitude (.int (-1234567890)) (-1234567890) rfl
    (by decide) (Or.inl (by norm_num))

/-- Counterexample to C10 as stated: the negative integer -123456789 has a
decimal string of exactly 10 characters including the minus sign, so
check_epoch formats it (a pre-1970 timestamp) instead of returning None. -/
theorem check_epoch_negative_counterexample :
    (-123456789 : Int) < 0 ∧
    DataCleaning.check_epoch (.int (-123456789)) = some "1966-02-02 02:26" :=
  ⟨by decide, by decide⟩
